import Mathlib

/-!
# Verification of the ToDoStuff task tracker (src/todo.py)

Shallow embedding of the persistence and data-shaping logic of the
single-file Streamlit to-do application.  A task is a JSON object with
fields `id`, `title`, `priority`, `category`, `completed`; fields other
than `id` may be absent in a hand-edited backing file, so they are
modelled as `Option`.  Python dictionary accesses translate as:
`t["f"]` becomes direct field access, `t.get("f", d)` becomes
`(t.f).getD d`, and `t.get("f")` becomes the bare `Option`.
-/

/-- Python `str.strip()` with no argument on the character list of a
string: drop leading and trailing whitespace (modelled by
`Char.isWhitespace`). -/
def stripList (l : List Char) : List Char :=
  ((l.dropWhile Char.isWhitespace).reverse.dropWhile Char.isWhitespace).reverse

/-- Python `str.strip()`: the string with leading and trailing
whitespace removed. -/
def strip (s : String) : String :=
  String.mk (stripList s.data)

/-- A to-do record, the only entity of the data model. -/
structure Todo where
  id : Int
  title : String
  priority : Option String
  category : Option String
  completed : Option Bool
deriving DecidableEq

/-- Python `max` over a non-empty sequence, as a left fold. -/
def maxList (a : Int) : List Int → Int
  | [] => a
  | x :: xs => maxList (max a x) xs

/-- `get_next_id(todos)` (todo.py:38-42): 1 if the collection is empty,
otherwise `max(t.get("id", 0) for t in todos) + 1`; with `id` always
present, `t.get("id", 0)` is the task's id. -/
def get_next_id (todos : List Todo) : Int :=
  match todos.map Todo.id with
  | [] => 1
  | x :: xs => maxList x xs + 1

/-- A JSON value, for the shape check performed by `load_todos`. -/
inductive Json where
  | null
  | bool (b : Bool)
  | num (n : Int)
  | str (s : String)
  | arr (xs : List Json)
  | obj (fields : List (String × Json))

/-- `load_todos()` (todo.py:13-26) on an existing backing file, as a
function of the JSON parse outcome.  Returned pair: the loaded raw array
elements, and the list of error messages shown via `st.error`.
`json.load` raising translates to `Except.error`; the code returns
`data if isinstance(data, list) else []` (no error call on the non-list
branch) and the `except` clause reports the error and returns `[]`. -/
def load_todos (parsed : Except String Json) : List Json × List String :=
  match parsed with
  | .ok (Json.arr xs) => (xs, [])
  | .ok _ => ([], [])
  | .error e => ([], ["Error loading todos: " ++ e])

/-- Outcome of the add-form submission: the resulting collection,
whether `save_todos` was invoked, and the `st.error` message if any. -/
structure AddResult where
  todos : List Todo
  saved : Bool
  error : Option String
deriving DecidableEq

/-- The submitted branch of `render_todo_input` (todo.py:61-76):
if `todo_title.strip()` is truthy, append a new task with a fresh id,
the stripped title, the chosen priority, the stripped category and
`completed = False`, and save; else report a validation error. -/
def add_todo (todos : List Todo) (todo_title todo_priority todo_category : String) :
    AddResult :=
  if strip todo_title ≠ "" then
    { todos := todos ++ [{ id := get_next_id todos,
                           title := strip todo_title,
                           priority := some todo_priority,
                           category := some (strip todo_category),
                           completed := some false }],
      saved := true,
      error := none }
  else
    { todos := todos, saved := false, error := some "Please enter a to-do title!" }

/-- The complete button handler (todo.py:122-128): walk the collection,
set `completed = True` on the first task whose id matches, then stop. -/
def mark_complete (i : Int) : List Todo → List Todo
  | [] => []
  | t :: ts =>
      if t.id = i then { t with completed := some true } :: ts
      else t :: mark_complete i ts

/-- The undo button handler (todo.py:218-224): walk the collection,
set `completed = False` on the first task whose id matches, then stop. -/
def mark_incomplete (i : Int) : List Todo → List Todo
  | [] => []
  | t :: ts =>
      if t.id = i then { t with completed := some false } :: ts
      else t :: mark_incomplete i ts

/-- The edit-form save handler (todo.py:151-158): on the first task whose
id matches, store the stripped new title, the stripped new category and
the selected priority, then stop.  No validation is performed. -/
def edit_todo (i : Int) (new_title new_category new_priority : String) :
    List Todo → List Todo
  | [] => []
  | t :: ts =>
      if t.id = i then
        { t with title := strip new_title,
                 category := some (strip new_category),
                 priority := some new_priority } :: ts
      else t :: edit_todo i new_title new_category new_priority ts

/-- The delete button handler (todo.py:137, 228):
`[t for t in todos if t["id"] != todo["id"]]`. -/
def delete_todo (i : Int) (todos : List Todo) : List Todo :=
  todos.filter (fun t => t.id ≠ i)

/-- The clear-all-completed handler (todo.py:195-198):
`[t for t in todos if not t.get("completed", False)]`. -/
def clear_completed (todos : List Todo) : List Todo :=
  todos.filter (fun t => !(t.completed.getD false))

/-- Python `t.get(field) in chosen` for an optional string field:
`None in chosen` is false for a list of strings. -/
def optMem (o : Option String) (chosen : List String) : Bool :=
  match o with
  | some x => chosen.contains x
  | none => false

/-- The filter stage of `render_todo_display` (todo.py:98-102): apply the
category filter only when the category selection is non-empty (Python
list truthiness), then the priority filter likewise. -/
def filter_todos (todos : List Todo) (filter_category filter_priority : List String) :
    List Todo :=
  let filtered1 :=
    if filter_category.isEmpty then todos
    else todos.filter (fun t => optMem t.category filter_category)
  if filter_priority.isEmpty then filtered1
  else filtered1.filter (fun t => optMem t.priority filter_priority)

/-- `len([t for t in todos if t.get("completed", False)])`
(todo.py:250). -/
def completed_count (todos : List Todo) : Nat :=
  (todos.filter (fun t => t.completed.getD false)).length

/-- Round to the nearest integer, ties to the even integer: the rounding
mode of Python's built-in `round`. -/
def round_half_even (q : ℚ) : ℤ :=
  let f := ⌊q⌋
  let r := q - f
  if r < 1 / 2 then f
  else if 1 / 2 < r then f + 1
  else if f % 2 = 0 then f else f + 1

/-- Python `round(q, 1)`: round to one decimal place (floats modelled as
exact rationals). -/
def round1 (q : ℚ) : ℚ :=
  (round_half_even (q * 10) : ℚ) / 10

/-- The completion-rate metric of `render_analytics` (todo.py:242-257):
the analytics view returns early when the collection is empty, and the
rate `round((completed / len(todos)) * 100, 1)` is additionally guarded
by `if len(todos) > 0`, so no division happens on an empty collection
(`none`). -/
def completion_rate (todos : List Todo) : Option ℚ :=
  if 0 < todos.length then
    some (round1 ((completed_count todos : ℚ) / (todos.length : ℚ) * 100))
  else none

/-- The priority column of `render_analytics` (todo.py:262-264):
`[t.get("priority", "Low") for t in todos]`. -/
def priority_values (todos : List Todo) : List String :=
  todos.map (fun t => t.priority.getD "Low")

/-- One bar of the `value_counts()` histogram (todo.py:265): how many
tasks fall under priority value `p`. -/
def priority_count (todos : List Todo) (p : String) : Nat :=
  (priority_values todos).count p

/-- A user action on the store, for reasoning about operation
sequences. -/
inductive Op where
  | addOp (title priority category : String)
  | deleteOp (i : Int)

/-- Replay a sequence of add/delete actions against a starting
collection; returns the final collection and the ids assigned by the
accepted adds, in order.  An add assigns `get_next_id` of the current
collection exactly when the form accepts it (non-blank trimmed title),
mirroring `render_todo_input`; a delete runs the delete handler. -/
def run_ops (todos : List Todo) : List Op → List Todo × List Int
  | [] => (todos, [])
  | Op.addOp t p c :: ops =>
      let r := add_todo todos t p c
      let rest := run_ops r.todos ops
      if r.saved then (rest.1, get_next_id todos :: rest.2) else rest
  | Op.deleteOp i :: ops => run_ops (delete_todo i todos) ops

/-- An action sequence consisting only of adds (no deletes). -/
def AddOnly (ops : List Op) : Prop :=
  ∀ op ∈ ops, ∃ t p c, op = Op.addOp t p c

/-- Ids are pairwise distinct within the collection. -/
def IdNodup (todos : List Todo) : Prop :=
  (todos.map Todo.id).Nodup

/-- The three-task example of the filter-intersection property:
Work/High, Work/Low, Home/High. -/
def exFilterTasks : List Todo :=
  [{ id := 1, title := "t1", priority := some "High",
     category := some "Work", completed := some false },
   { id := 2, title := "t2", priority := some "Low",
     category := some "Work", completed := some false },
   { id := 3, title := "t3", priority := some "High",
     category := some "Home", completed := some false }]

/-- The sole incomplete task of the clear-completed example; its
`completed` field is absent, which counts as not completed. -/
def exIncomplete : Todo :=
  { id := 2, title := "keep", priority := some "Medium",
    category := some "Work", completed := none }

/-- Clear-completed example: 3 tasks of which 2 are completed. -/
def exClearTasks : List Todo :=
  [{ id := 1, title := "done1", priority := some "Low",
     category := some "Work", completed := some true },
   exIncomplete,
   { id := 3, title := "done2", priority := some "High",
     category := none, completed := some true }]

/-- Completion-rate example: 4 tasks of which 1 is completed. -/
def exRateTasks : List Todo :=
  [{ id := 1, title := "a", priority := some "Low",
     category := none, completed := some true },
   { id := 2, title := "b", priority := some "Low",
     category := none, completed := some false },
   { id := 3, title := "c", priority := some "Medium",
     category := none, completed := none },
   { id := 4, title := "d", priority := some "High",
     category := none, completed := some false }]

/-- Action sequence witnessing id reuse: add, add, delete the task with
id 2, add again. -/
def cexOps : List Op :=
  [Op.addOp "a" "Low" "", Op.addOp "b" "Low" "",
   Op.deleteOp 2, Op.addOp "c" "Low" ""]

/-- A task carrying a present but unknown priority string. -/
def exUrgent : Todo :=
  { id := 1, title := "u", priority := some "Urgent",
    category := none, completed := some false }

/-! ## Helper lemmas -/

theorem le_maxList (a : Int) (l : List Int) : a ≤ maxList a l := by
  induction l generalizing a with
  | nil => exact le_refl a
  | cons x xs ih => exact le_trans (le_max_left a x) (ih (max a x))

theorem mem_le_maxList (a x : Int) (l : List Int) (hx : x ∈ l) :
    x ≤ maxList a l := by
  induction l generalizing a with
  | nil => cases hx
  | cons y ys ih =>
      rcases List.mem_cons.mp hx with h | h
      · subst h
        exact le_trans (le_max_right a x) (le_maxList (max a x) ys)
      · exact ih (max a y) h

theorem maxList_max (a b : Int) (l : List Int) :
    maxList (max a b) l = max a (maxList b l) := by
  induction l generalizing a b with
  | nil => rfl
  | cons x xs ih =>
      show maxList (max (max a b) x) xs = max a (maxList (max b x) xs)
      rw [max_assoc, ih]

theorem mem_id_lt_get_next_id (todos : List Todo) (x : Int)
    (hx : x ∈ todos.map Todo.id) : x < get_next_id todos := by
  unfold get_next_id
  cases h : todos.map Todo.id with
  | nil => rw [h] at hx; cases hx
  | cons a l =>
      rw [h] at hx
      rcases List.mem_cons.mp hx with h1 | h1
      · subst h1
        exact lt_of_le_of_lt (le_maxList x l) (lt_add_one _)
      · exact lt_of_le_of_lt (mem_le_maxList a x l h1) (lt_add_one _)

theorem id_lt_get_next_id (todos : List Todo) (t : Todo) (ht : t ∈ todos) :
    t.id < get_next_id todos :=
  mem_id_lt_get_next_id todos t.id (List.mem_map_of_mem Todo.id ht)

theorem map_id_mark_complete (i : Int) (todos : List Todo) :
    (mark_complete i todos).map Todo.id = todos.map Todo.id := by
  induction todos with
  | nil => rfl
  | cons t ts ih =>
      by_cases h : t.id = i
      · simp [mark_complete, h]
      · simp [mark_complete, h, ih]

theorem map_id_mark_incomplete (i : Int) (todos : List Todo) :
    (mark_incomplete i todos).map Todo.id = todos.map Todo.id := by
  induction todos with
  | nil => rfl
  | cons t ts ih =>
      by_cases h : t.id = i
      · simp [mark_incomplete, h]
      · simp [mark_incomplete, h, ih]

theorem map_id_edit_todo (i : Int) (nt nc np : String) (todos : List Todo) :
    (edit_todo i nt nc np todos).map Todo.id = todos.map Todo.id := by
  induction todos with
  | nil => rfl
  | cons t ts ih =>
      by_cases h : t.id = i
      · simp [edit_todo, h]
      · simp [edit_todo, h, ih]

/-- A first-match update leaves a list alone when no element's id
matches; `u` is the field update applied at the match site. -/
theorem map_update_eq_self (u : Todo → Todo) (i : Int) (ts : List Todo)
    (h : ∀ t ∈ ts, t.id ≠ i) :
    ts.map (fun t => if t.id = i then u t else t) = ts := by
  induction ts with
  | nil => rfl
  | cons t ts ih =>
      have ht : t.id ≠ i := h t (List.mem_cons_self t ts)
      simp only [List.map_cons, if_neg ht]
      rw [ih (fun t' ht' => h t' (List.mem_cons_of_mem t ht'))]

theorem IdNodup_cons (t : Todo) (ts : List Todo) (h : IdNodup (t :: ts)) :
    t.id ∉ ts.map Todo.id ∧ IdNodup ts := by
  have := List.nodup_cons.mp h
  exact this

theorem not_mem_map_id_cons (t : Todo) (ts : List Todo) (i : Int)
    (h : i ∉ (t :: ts).map Todo.id) : t.id ≠ i ∧ i ∉ ts.map Todo.id := by
  rw [List.map_cons, List.mem_cons] at h
  push_neg at h
  exact ⟨fun he => h.1 he.symm, h.2⟩

theorem mark_complete_not_mem (i : Int) :
    ∀ todos : List Todo, i ∉ todos.map Todo.id → mark_complete i todos = todos
  | [], _ => rfl
  | t :: ts, h => by
      obtain ⟨h1, h2⟩ := not_mem_map_id_cons t ts i h
      simp [mark_complete, h1, mark_complete_not_mem i ts h2]

theorem mark_incomplete_not_mem (i : Int) :
    ∀ todos : List Todo, i ∉ todos.map Todo.id → mark_incomplete i todos = todos
  | [], _ => rfl
  | t :: ts, h => by
      obtain ⟨h1, h2⟩ := not_mem_map_id_cons t ts i h
      simp [mark_incomplete, h1, mark_incomplete_not_mem i ts h2]

/-! ## Claim theorems -/

/-- Counterexample to C2 as stated: on content that is valid JSON but
not an array (here the string "not a list"), `load_todos` returns the
empty collection but reports no error at all — the `isinstance` branch
is silent, contradicting the claim that an error is reported to the
caller. -/
theorem load_non_array_silent_cex :
    (load_todos (Except.ok (Json.str "not a list"))).1 = [] ∧
    (load_todos (Except.ok (Json.str "not a list"))).2 = [] :=
  ⟨rfl, rfl⟩

/-- C2 (amended): for every parse result that is valid JSON but not an
array, `load_todos` returns the empty collection and does not raise,
but reports no error; for every malformed-JSON parse failure it reports
an error and returns the empty collection rather than raising. -/
theorem load_todos_error_handling (j : Json) (e : String)
    (hj : ∀ xs, j ≠ Json.arr xs) :
    load_todos (Except.ok j) = ([], []) ∧
    (load_todos (Except.error e)).1 = [] ∧
    (load_todos (Except.error e)).2 = ["Error loading todos: " ++ e] := by
  refine ⟨?_, rfl, rfl⟩
  cases j with
  | arr xs => exact absurd rfl (hj xs)
  | null => rfl
  | bool b => rfl
  | num n => rfl
  | str s => rfl
  | obj fields => rfl

/-- Witness for C2 (amended) at concrete inputs: the JSON number 42 and
the parse error message "boom". -/
theorem load_todos_error_handling_witness :
    load_todos (Except.ok (Json.num 42)) = ([], []) ∧
    (load_todos (Except.error "boom")).1 = [] ∧
    (load_todos (Except.error "boom")).2 = ["Error loading todos: " ++ "boom"] :=
  load_todos_error_handling (Json.num 42) "boom" (fun xs h => by cases h)

/-- C3: a title whose stripped form is empty is rejected with a
user-facing error, the collection is unchanged and no save happens;
a title whose stripped form is non-empty appends exactly one new task
with a fresh id (distinct from every existing id), the stripped title,
the chosen priority, the stripped category and `completed = false`,
leaving all existing tasks unchanged. -/
theorem add_todo_spec (todos : List Todo) (t1 t2 pri cat : String)
    (h1 : strip t1 = "") (h2 : strip t2 ≠ "") :
    (add_todo todos t1 pri cat).todos = todos ∧
    (add_todo todos t1 pri cat).saved = false ∧
    (add_todo todos t1 pri cat).error = some "Please enter a to-do title!" ∧
    (∀ t ∈ todos, t.id ≠ get_next_id todos) ∧
    (add_todo todos t2 pri cat).todos =
      todos ++ [{ id := get_next_id todos, title := strip t2,
                  priority := some pri, category := some (strip cat),
                  completed := some false }] ∧
    (add_todo todos t2 pri cat).saved = true ∧
    (add_todo todos t2 pri cat).error = none := by
  refine ⟨?_, ?_, ?_, ?_, ?_, ?_, ?_⟩
  · simp [add_todo, h1]
  · simp [add_todo, h1]
  · simp [add_todo, h1]
  · exact fun t ht => ne_of_lt (id_lt_get_next_id todos t ht)
  · simp [add_todo, h2]
  · simp [add_todo, h2]
  · simp [add_todo, h2]

/-- Witness for C3: blank title "   " is rejected, title " x " is
accepted, on the three-task example collection. -/
theorem add_todo_spec_witness :
    (add_todo exFilterTasks "   " "Low" " Work ").todos = exFilterTasks ∧
    (add_todo exFilterTasks "   " "Low" " Work ").saved = false ∧
    (add_todo exFilterTasks "   " "Low" " Work ").error =
      some "Please enter a to-do title!" ∧
    (∀ t ∈ exFilterTasks, t.id ≠ get_next_id exFilterTasks) ∧
    (add_todo exFilterTasks " x " "Low" " Work ").todos =
      exFilterTasks ++ [{ id := get_next_id exFilterTasks, title := strip " x ",
                          priority := some "Low", category := some (strip " Work "),
                          completed := some false }] ∧
    (add_todo exFilterTasks " x " "Low" " Work ").saved = true ∧
    (add_todo exFilterTasks " x " "Low" " Work ").error = none :=
  add_todo_spec exFilterTasks "   " " x " "Low" " Work " (by decide) (by decide)

/-- C4: the two filters compose as a conjunction, an empty selection
imposes no restriction, and on the Work/High, Work/Low, Home/High
example filtering by categories Work and priorities High yields exactly
the first task. -/
theorem filter_todos_spec (todos : List Todo) (cats pris : List String) :
    filter_todos todos cats pris =
      todos.filter (fun t =>
        (cats.isEmpty || optMem t.category cats) &&
        (pris.isEmpty || optMem t.priority pris)) ∧
    filter_todos exFilterTasks ["Work"] ["High"] =
      [{ id := 1, title := "t1", priority := some "High",
         category := some "Work", completed := some false }] := by
  refine ⟨?_, by decide⟩
  by_cases hc : cats.isEmpty <;> by_cases hp : pris.isEmpty
  · simp [filter_todos, hc, hp]
  · simp [filter_todos, hc, hp]
  · simp [filter_todos, hc, hp]
  · have hc' : cats.isEmpty = false := by simpa using hc
    have hp' : pris.isEmpty = false := by simpa using hp
    simp only [filter_todos, hc', hp', if_neg, Bool.false_eq_true,
      not_false_eq_true, List.filter_filter]
    exact List.filter_congr (fun t _ => by
      rw [Bool.false_or, Bool.false_or, Bool.and_comm])

/-- C5: clear-completed keeps exactly the tasks whose `completed` field
is not true (an absent field counts as not completed), as an
order-preserving sublist; on 3 tasks of which 2 are completed exactly
the incomplete one remains. -/
theorem clear_completed_spec (todos : List Todo) :
    List.Sublist (clear_completed todos) todos ∧
    (∀ t, t ∈ clear_completed todos ↔
        t ∈ todos ∧ t.completed.getD false = false) ∧
    clear_completed exClearTasks = [exIncomplete] := by
  refine ⟨List.filter_sublist todos, ?_, by decide⟩
  intro t
  simp [clear_completed, List.mem_filter]

/-- C6: completing or uncompleting an id that matches no task leaves the
collection unchanged — the update loop finds no match, so the saved
collection equals the loaded one and no error is surfaced (the handlers
have no error path). -/
theorem unknown_id_noop (todos : List Todo) (i : Int)
    (h : i ∉ todos.map Todo.id) :
    mark_complete i todos = todos ∧ mark_incomplete i todos = todos :=
  ⟨mark_complete_not_mem i todos h, mark_incomplete_not_mem i todos h⟩

/-- Witness for C6: id 99 matches nothing in the three-task example. -/
theorem unknown_id_noop_witness :
    mark_complete 99 exFilterTasks = exFilterTasks ∧
    mark_incomplete 99 exFilterTasks = exFilterTasks :=
  unknown_id_noop exFilterTasks 99 (by decide)

theorem mark_complete_eq_map (i : Int) :
    ∀ todos : List Todo, IdNodup todos →
      mark_complete i todos =
        todos.map (fun t =>
          if t.id = i then { t with completed := some true } else t)
  | [], _ => rfl
  | t :: ts, h => by
      obtain ⟨hni, hnd⟩ := IdNodup_cons t ts h
      by_cases ht : t.id = i
      · have hts : ∀ t' ∈ ts, t'.id ≠ i := by
          intro t' ht' he
          apply hni
          rw [ht, ← he]
          exact List.mem_map_of_mem Todo.id ht'
        simp only [mark_complete, if_pos ht, List.map_cons]
        rw [map_update_eq_self _ i ts hts]
      · simp only [mark_complete, if_neg ht, List.map_cons]
        rw [mark_complete_eq_map i ts hnd]

theorem mark_incomplete_eq_map (i : Int) :
    ∀ todos : List Todo, IdNodup todos →
      mark_incomplete i todos =
        todos.map (fun t =>
          if t.id = i then { t with completed := some false } else t)
  | [], _ => rfl
  | t :: ts, h => by
      obtain ⟨hni, hnd⟩ := IdNodup_cons t ts h
      by_cases ht : t.id = i
      · have hts : ∀ t' ∈ ts, t'.id ≠ i := by
          intro t' ht' he
          apply hni
          rw [ht, ← he]
          exact List.mem_map_of_mem Todo.id ht'
        simp only [mark_incomplete, if_pos ht, List.map_cons]
        rw [map_update_eq_self _ i ts hts]
      · simp only [mark_incomplete, if_neg ht, List.map_cons]
        rw [mark_incomplete_eq_map i ts hnd]

theorem edit_todo_eq_map (i : Int) (nt nc np : String) :
    ∀ todos : List Todo, IdNodup todos →
      edit_todo i nt nc np todos =
        todos.map (fun t =>
          if t.id = i then
            { t with title := strip nt, category := some (strip nc),
                     priority := some np }
          else t)
  | [], _ => rfl
  | t :: ts, h => by
      obtain ⟨hni, hnd⟩ := IdNodup_cons t ts h
      by_cases ht : t.id = i
      · have hts : ∀ t' ∈ ts, t'.id ≠ i := by
          intro t' ht' he
          apply hni
          rw [ht, ← he]
          exact List.mem_map_of_mem Todo.id ht'
        simp only [edit_todo, if_pos ht, List.map_cons]
        rw [map_update_eq_self _ i ts hts]
      · simp only [edit_todo, if_neg ht, List.map_cons]
        rw [edit_todo_eq_map i nt nc np ts hnd]

/-- C9: on a collection with pairwise-distinct ids containing the given
id, complete and uncomplete act as a positionwise map that rewrites only
the `completed` field of the task carrying that id and fixes every other
task, so every other field, every other task and the relative order are
unchanged. -/
theorem mark_frame (todos : List Todo) (i : Int)
    (hnd : IdNodup todos) (hmem : i ∈ todos.map Todo.id) :
    mark_complete i todos =
      todos.map (fun t =>
        if t.id = i then { t with completed := some true } else t) ∧
    mark_incomplete i todos =
      todos.map (fun t =>
        if t.id = i then { t with completed := some false } else t) :=
  ⟨mark_complete_eq_map i todos hnd, mark_incomplete_eq_map i todos hnd⟩

/-- Witness for C9: completing and uncompleting id 2 in the three-task
example. -/
theorem mark_frame_witness :
    mark_complete 2 exFilterTasks =
      exFilterTasks.map (fun t =>
        if t.id = 2 then { t with completed := some true } else t) ∧
    mark_incomplete 2 exFilterTasks =
      exFilterTasks.map (fun t =>
        if t.id = 2 then { t with completed := some false } else t) :=
  mark_frame exFilterTasks 2
    (by show (exFilterTasks.map Todo.id).Nodup; decide) (by decide)

/-- C10: saving an edit performs no emptiness validation: for a
whitespace-only new title the matching task's stored title becomes the
empty string and the stripped category and chosen priority are stored,
while its id and completed flag and all other tasks are unchanged; the
handler has no rejection or error path. -/
theorem edit_no_validation (todos : List Todo) (i : Int) (nt nc np : String)
    (hnd : IdNodup todos) (hmem : i ∈ todos.map Todo.id)
    (hws : strip nt = "") :
    edit_todo i nt nc np todos =
      todos.map (fun t =>
        if t.id = i then
          { t with title := "", category := some (strip nc),
                   priority := some np }
        else t) := by
  rw [edit_todo_eq_map i nt nc np todos hnd, hws]

/-- Witness for C10: editing id 2 of the three-task example with the
whitespace-only title "   ". -/
theorem edit_no_validation_witness :
    edit_todo 2 "   " " Home " "Low" exFilterTasks =
      exFilterTasks.map (fun t =>
        if t.id = 2 then
          { t with title := "", category := some (strip " Home "),
                   priority := some "Low" }
        else t) :=
  edit_no_validation exFilterTasks 2 "   " " Home " "Low"
    (by show (exFilterTasks.map Todo.id).Nodup; decide) (by decide) (by decide)

theorem maximum_eq_maxList : ∀ (l : List Int) (a : Int),
    (a :: l).maximum = some (maxList a l)
  | [], a => rfl
  | x :: xs, a => by
      have ih := maximum_eq_maxList xs x
      rw [List.maximum_cons, ih,
        show maxList a (x :: xs) = maxList (max a x) xs from rfl,
        maxList_max a x xs]
      exact (WithBot.coe_max a (maxList x xs)).symm

theorem get_next_id_of_maximum (todos : List Todo) (m : Int)
    (h : (todos.map Todo.id).maximum = some m) :
    get_next_id todos = m + 1 := by
  unfold get_next_id
  cases hm : todos.map Todo.id with
  | nil => rw [hm, List.maximum_nil] at h; cases h
  | cons a l =>
      rw [hm, maximum_eq_maxList l a] at h
      have hml : maxList a l = m := Option.some.inj h
      show maxList a l + 1 = m + 1
      rw [hml]

theorem run_ops_addOnly_bounds :
    ∀ (ops : List Op) (todos : List Todo), AddOnly ops →
      (run_ops todos ops).2.Pairwise (· < ·) ∧
      ∀ x ∈ (run_ops todos ops).2, get_next_id todos ≤ x
  | [], _, _ => ⟨List.Pairwise.nil, fun x hx => absurd hx (List.not_mem_nil x)⟩
  | Op.deleteOp i :: ops, todos, h => by
      obtain ⟨t, p, c, heq⟩ := h (Op.deleteOp i) (List.mem_cons_self _ _)
      exact Op.noConfusion heq
  | Op.addOp t p c :: ops, todos, h => by
      have hops : AddOnly ops := fun op hop => h op (List.mem_cons_of_mem _ hop)
      by_cases hs : strip t ≠ ""
      · have ih := run_ops_addOnly_bounds ops
          (todos ++ [{ id := get_next_id todos, title := strip t,
                       priority := some p, category := some (strip c),
                       completed := some false }]) hops
        have hlt : get_next_id todos <
            get_next_id (todos ++ [{ id := get_next_id todos, title := strip t,
                                     priority := some p, category := some (strip c),
                                     completed := some false }]) := by
          apply id_lt_get_next_id _
            { id := get_next_id todos, title := strip t,
              priority := some p, category := some (strip c),
              completed := some false }
          exact List.mem_append_right todos (List.mem_singleton_self _)
        simp only [run_ops, add_todo, if_pos hs, if_true]
        constructor
        · rw [List.pairwise_cons]
          refine ⟨fun x hx => lt_of_lt_of_le hlt (ih.2 x hx), ih.1⟩
        · intro x hx
          rcases List.mem_cons.mp hx with h1 | h1
          · exact le_of_eq h1.symm
          · exact le_of_lt (lt_of_lt_of_le hlt (ih.2 x h1))
      · have ih := run_ops_addOnly_bounds ops todos hops
        simp only [run_ops, add_todo, if_neg hs]
        exact ih

theorem IdNodup_add_todo (todos : List Todo) (t p c : String)
    (h : IdNodup todos) : IdNodup (add_todo todos t p c).todos := by
  by_cases hs : strip t ≠ ""
  · simp only [add_todo, if_pos hs]
    show IdNodup (todos ++ [_])
    unfold IdNodup at h ⊢
    rw [List.map_append, List.nodup_append]
    refine ⟨h, List.nodup_singleton _, ?_⟩
    intro x hx hx2
    rw [List.map_singleton, List.mem_singleton] at hx2
    subst hx2
    exact lt_irrefl _ (mem_id_lt_get_next_id todos _ hx)
  · simp only [add_todo, if_neg hs]
    exact h

theorem IdNodup_filter (q : Todo → Bool) (todos : List Todo)
    (h : IdNodup todos) : IdNodup (todos.filter q) :=
  List.Nodup.sublist (List.Sublist.map Todo.id (List.filter_sublist todos)) h

/-- Counterexample to C1 as stated: replaying add, add, delete id 2, add
from the empty collection assigns the ids 1, 2, 2 — the ids ever
assigned are not pairwise distinct, and the id 2 of the deleted task is
reassigned by the next add. -/
theorem id_reuse_cex :
    (run_ops [] cexOps).2 = [1, 2, 2] ∧ ¬ (run_ops [] cexOps).2.Nodup :=
  ⟨by decide, by decide⟩

/-- C1 (amended): `get_next_id` returns 1 on the empty collection and
the maximum existing id plus one otherwise; over every add-only action
sequence the assigned ids are pairwise distinct; and id uniqueness
within the collection is an invariant preserved by add, complete,
uncomplete, edit, delete and clear-completed.  (The original claim also
forbade reassigning a deleted task's id; `id_reuse_cex` shows the code
reuses such an id when it exceeds the remaining maximum.) -/
theorem id_uniqueness_amended (todos : List Todo) (ops : List Op)
    (i m : Int) (tt pp cc nt nc np : String)
    (hadd : AddOnly ops) (hnd : IdNodup todos)
    (hmax : (todos.map Todo.id).maximum = some m) :
    get_next_id [] = 1 ∧
    get_next_id todos = m + 1 ∧
    (run_ops todos ops).2.Nodup ∧
    IdNodup (add_todo todos tt pp cc).todos ∧
    IdNodup (mark_complete i todos) ∧
    IdNodup (mark_incomplete i todos) ∧
    IdNodup (edit_todo i nt nc np todos) ∧
    IdNodup (delete_todo i todos) ∧
    IdNodup (clear_completed todos) := by
  refine ⟨rfl, get_next_id_of_maximum todos m hmax, ?_, ?_, ?_, ?_, ?_, ?_, ?_⟩
  · exact List.Pairwise.imp (fun hlt => ne_of_lt hlt)
      (run_ops_addOnly_bounds ops todos hadd).1
  · exact IdNodup_add_todo todos tt pp cc hnd
  · unfold IdNodup
    rw [map_id_mark_complete]
    exact hnd
  · unfold IdNodup
    rw [map_id_mark_incomplete]
    exact hnd
  · unfold IdNodup
    rw [map_id_edit_todo]
    exact hnd
  · exact IdNodup_filter _ todos hnd
  · exact IdNodup_filter _ todos hnd

/-- Witness for C1 (amended): the three-task example with maximum id 3,
one accepted add, and every operation at id 2. -/
theorem id_uniqueness_amended_witness :
    get_next_id [] = 1 ∧
    get_next_id exFilterTasks = 3 + 1 ∧
    (run_ops exFilterTasks [Op.addOp "a" "Low" ""]).2.Nodup ∧
    IdNodup (add_todo exFilterTasks "a" "Low" "").todos ∧
    IdNodup (mark_complete 2 exFilterTasks) ∧
    IdNodup (mark_incomplete 2 exFilterTasks) ∧
    IdNodup (edit_todo 2 "a" "b" "Low" exFilterTasks) ∧
    IdNodup (delete_todo 2 exFilterTasks) ∧
    IdNodup (clear_completed exFilterTasks) :=
  id_uniqueness_amended exFilterTasks [Op.addOp "a" "Low" ""] 2 3
    "a" "Low" "" "a" "b" "Low"
    (fun op hop => ⟨"a", "Low", "", List.mem_singleton.mp hop⟩)
    (by show (exFilterTasks.map Todo.id).Nodup; decide)
    (by decide)

/-- C7: on a non-empty collection of n tasks with c completed, the
completion rate is round(c/n x 100) to one decimal place — in
particular 25.0 for 4 tasks with 1 completed — and on the empty
collection the computation performs no division and does not raise. -/
theorem completion_rate_spec (todos : List Todo) (h : todos ≠ []) :
    completion_rate todos =
      some (round1 ((completed_count todos : ℚ) / (todos.length : ℚ) * 100)) ∧
    completion_rate [] = none ∧
    completion_rate exRateTasks = some 25 := by
  refine ⟨?_, rfl, ?_⟩
  · rw [completion_rate, if_pos (List.length_pos.mpr h)]
  · norm_num [completion_rate, round1, round_half_even, completed_count,
      exRateTasks]

/-- Witness for C7 at the 4-task example. -/
theorem completion_rate_spec_witness :
    completion_rate exRateTasks =
      some (round1 ((completed_count exRateTasks : ℚ) /
        (exRateTasks.length : ℚ) * 100)) ∧
    completion_rate [] = none ∧
    completion_rate exRateTasks = some 25 :=
  completion_rate_spec exRateTasks (by decide)

/-- Counterexample to C8 as stated: a task with the present but unknown
priority string "Urgent" is not counted under "Low" (that count is 0);
it is counted under its own value. -/
theorem priority_unknown_cex :
    priority_count [exUrgent] "Low" = 0 ∧
    priority_count [exUrgent] "Urgent" = 1 :=
  ⟨rfl, rfl⟩

/-- C8 (amended): the priority histogram counts tasks per priority value
after defaulting only a missing priority to "Low"; a present but
unknown priority string is counted under its own value, not under
"Low".  The count under p equals the number of tasks whose effective
priority (missing defaulted to "Low") is p; a task with an absent
priority is counted under "Low". -/
theorem priority_histogram_amended (todos : List Todo) (p : String) :
    priority_count todos p =
      (todos.filter (fun t => t.priority.getD "Low" = p)).length ∧
    priority_count [exUrgent] "Urgent" = 1 ∧
    priority_count [{ exUrgent with priority := none }] "Low" = 1 := by
  refine ⟨?_, rfl, rfl⟩
  rw [priority_count, priority_values, List.count, List.countP_map,
    List.countP_eq_length_filter]
  rfl
